import Mathlib

/-!
Verification of the session-memory service in `src/memory.rs` (motorhead).

Strings are modelled as lists of characters (`Str`).  The Redis store is
modelled as a pair of total maps: one from keys to lists of raw lines (an
absent list key is the empty list, matching Redis semantics where an empty
list and an absent key are indistinguishable to LRANGE/LTRIM/DEL), and one
from keys to optional strings.  Every handler of `memory.rs` is embedded as
a pure function from the store (and, for `post_memory`, the session-cleanup
registry) to the new store plus the HTTP response.
-/

namespace Motorhead

/-- Strings, modelled as lists of characters. -/
abbrev Str := List Char

/-- A chat message, `MemoryMessage { role, content }` from `models.rs`. -/
structure MemoryMessage where
  role : Str
  content : Str
deriving DecidableEq, Repr

/-- The role/content delimiter `": "` used by `format!("{}: {}", role, content)`
and `splitn(2, ": ")` in `memory.rs`. -/
def delim : Str := [':', ' ']

/-- Encoding of a message, `format!("{}: {}", role, content)` (memory.rs line 71). -/
def encode (m : MemoryMessage) : Str := m.role ++ delim ++ m.content

/-- Whether the delimiter `": "` occurs right at the start: first character `':'`
followed by `' '`. -/
def delimAt (c : Char) (rest : Str) : Bool := c == ':' && rest.head? == some ' '

/-- Rust's `s.splitn(2, ": ")` restricted to the case the code uses: split at the
first occurrence of the delimiter, returning the part before and the part after,
or nothing when the delimiter does not occur. -/
def splitFirst : Str → Option (Str × Str)
  | [] => none
  | c :: rest =>
    if delimAt c rest then some ([], rest.tail)
    else
      match splitFirst rest with
      | some p => some (c :: p.1, p.2)
      | none => none

/-- `true` when the delimiter `": "` occurs somewhere in the line. -/
def containsDelim : Str → Bool
  | [] => false
  | c :: rest => delimAt c rest || containsDelim rest

/-- Decoding of a raw line (memory.rs lines 37-46): split on the first `": "`;
a line without the delimiter decodes to nothing. -/
def decode (s : Str) : Option MemoryMessage :=
  match splitFirst s with
  | some p => some { role := p.1, content := p.2 }
  | none => none

/-- The content the delete-last handler extracts from a raw line
(`parts.nth(1).unwrap_or("")`, memory.rs line 158): the part after the first
delimiter, or the empty string when there is no delimiter. -/
def contentOf (line : Str) : Str :=
  match splitFirst line with
  | some p => p.2
  | none => []

/-- The Redis store: per-key list of raw lines and per-key optional string.
An absent list key is the empty list. -/
structure Store where
  lists : Str → List Str
  strings : Str → Option Str

/-- Redis `LRANGE key start stop`: negative indices count from the end, both
bounds are inclusive, out-of-range bounds are clamped. -/
def lrange (l : List Str) (start stop : Int) : List Str :=
  let n : Int := (l.length : Int)
  let s : Int := max (if start < 0 then n + start else start) 0
  let e : Int := if stop < 0 then n + stop else stop
  if e < s then [] else (l.take (e.toNat + 1)).drop s.toNat

/-- Redis `LTRIM key start stop`: keep exactly the `LRANGE` range. -/
def ltrim (l : List Str) (start stop : Int) : List Str := lrange l start stop

/-- Redis `LPUSH key v1 .. vn`: each value is pushed to the front in argument
order, so the final list is the reversed batch followed by the old list.
Returns the new list (its length is LPUSH's reply). -/
def lpush (l : List Str) (vals : List Str) : List Str := vals.reverse ++ l

/-- The context key, `format!("{}_context", session_id)`. -/
def contextSuffix : Str := ['_', 'c', 'o', 'n', 't', 'e', 'x', 't']

/-- Key of the per-session compaction summary string. -/
def contextKey (sid : Str) : Str := sid ++ contextSuffix

/-- Response of the read handler, `MemoryResponse { messages, context }`. -/
structure MemoryResponse where
  messages : List MemoryMessage
  context : Option Str
deriving DecidableEq

/-- An HTTP acknowledgement: `ok = true` is `HttpResponse::Ok()`, `ok = false`
is `HttpResponse::BadRequest()`; `status` is the `AckResponse` status text. -/
structure AckOut where
  ok : Bool
  status : String
deriving DecidableEq

/-- `get_memory` (memory.rs lines 10-54): LRANGE the session list from 0 to
`window_size` inclusive, GET the context string, decode each raw line dropping
undecodable ones. -/
def get_memory (window_size : Nat) (store : Store) (sid : Str) : MemoryResponse :=
  let raw := lrange (store.lists sid) 0 (window_size : Int)
  { messages := raw.filterMap decode
    context := store.strings (contextKey sid) }

/-- The session-cleanup registry, `HashMap<String, bool>` behind the mutex:
a total map from session id to an optional flag (absent entry is `none`). -/
abbrev Registry := Str → Option Bool

/-- Insert `sid ↦ b` into the registry (`session_cleanup.insert(sid, true)`). -/
def insertFlag (r : Registry) (sid : Str) (b : Bool) : Registry :=
  fun k => if k = sid then some b else r k

/-- Remove the entry for `sid` (`lock.remove(&session_id)`, memory.rs line 95). -/
def removeFlag (r : Registry) (sid : Str) : Registry :=
  fun k => if k = sid then none else r k

/-- The lock-protected critical section of `post_memory` (memory.rs lines 83-84):
if the session's flag is absent or false, set it true and report that a
compaction task is to be spawned; otherwise leave the registry alone and spawn
nothing. -/
def admit_compaction (r : Registry) (sid : Str) : Registry × Bool :=
  if (r sid).getD false then (r, false)
  else (insertFlag r sid true, true)

/-- What `post_memory` produces: the updated store, the updated registry,
whether a compaction task was spawned, and the HTTP response. -/
structure PostResult where
  store : Store
  registry : Registry
  spawned : Bool
  response : AckOut

/-- `post_memory` (memory.rs lines 56-104): encode the batch, LPUSH it, and if
the resulting list length exceeds `window_size`, run the admission critical
section; always answer `Ok`. -/
def post_memory (window_size : Nat) (store : Store) (registry : Registry)
    (sid : Str) (msgs : List MemoryMessage) : PostResult :=
  let newList := lpush (store.lists sid) (msgs.map encode)
  let store' : Store :=
    { store with lists := fun k => if k = sid then newList else store.lists k }
  if newList.length > window_size then
    let adm := admit_compaction registry sid
    { store := store', registry := adm.1, spawned := adm.2
      response := { ok := true, status := "Ok" } }
  else
    { store := store', registry := registry, spawned := false
      response := { ok := true, status := "Ok" } }

/-- The tail of the spawned compaction task (memory.rs lines 89-96): the result
of the external `handle_compaction` call is ignored (`let _compaction_result`),
and the session's registry entry is removed, not reset to false. -/
def compaction_task_cleanup (_compaction_result : Except String Unit)
    (r : Registry) (sid : Str) : Registry :=
  removeFlag r sid

/-- `delete_memory` (memory.rs lines 106-131): one pipeline deleting the
message-list key and the context key; always answers `Ok`. -/
def delete_memory (store : Store) (sid : Str) : Store × AckOut :=
  ({ lists := fun k => if k = sid then [] else store.lists k
     strings := fun k => if k = contextKey sid then none else store.strings k },
   { ok := true, status := "Ok" })

/-- Body of the delete-last request, `DeleteLastRequest { count, message_text }`. -/
structure DeleteLastRequest where
  count : Int
  message_text : Str

/-- `delete_last_messages` (memory.rs lines 133-198): LRANGE indices
`0 .. count-1`, look at the last element of the fetched range, extract its
content after the first delimiter (empty when undecodable), and on a match
LTRIM away indices `0 .. count-1`; otherwise (or on an empty fetch) answer a
BadRequest with the mismatch status and leave the list untouched. -/
def delete_last_messages (store : Store) (sid : Str) (req : DeleteLastRequest) :
    Store × AckOut :=
  let last_messages := lrange (store.lists sid) 0 (req.count - 1)
  match last_messages.getLast? with
  | some last_message =>
    if contentOf last_message = req.message_text then
      ({ store with
          lists := fun k =>
            if k = sid then ltrim (store.lists sid) req.count (-1)
            else store.lists k },
       { ok := true, status := "Ok" })
    else (store, { ok := false, status := "Failed: Message text mismatch" })
  | none => (store, { ok := false, status := "Failed: Message text mismatch" })

/-- State of the admission-control system for the compaction tasks: the shared
registry plus, per session, the number of compaction tasks currently running. -/
structure SysState where
  registry : Registry
  inFlight : Str → Nat

/-- Initial state: empty registry, no task running. -/
def initState : SysState := { registry := fun _ => none, inFlight := fun _ => 0 }

/-- Atomic events of the system, as the code performs them.
`append` is an Append crossing the threshold: it runs the critical section
`admit_compaction` atomically (the registry mutex) and spawns one task exactly
when the critical section admits it. `quiet` is any event that does not touch
the registry (an Append at or below the threshold, reads, deletes). `finish`
is a running compaction task completing (successfully or not) and removing the
session's registry entry under the mutex. -/
inductive Step : SysState → SysState → Prop
  | append (s : SysState) (sid : Str) :
      Step s
        { registry := (admit_compaction s.registry sid).1
          inFlight := fun k =>
            if k = sid then
              (if (admit_compaction s.registry sid).2 then s.inFlight k + 1
               else s.inFlight k)
            else s.inFlight k }
  | quiet (s : SysState) : Step s s
  | finish (s : SysState) (sid : Str) (res : Except String Unit)
      (h : 0 < s.inFlight sid) :
      Step s
        { registry := compaction_task_cleanup res s.registry sid
          inFlight := fun k => if k = sid then s.inFlight k - 1 else s.inFlight k }

/-- States reachable from the initial state by the events above. -/
inductive Reachable : SysState → Prop
  | init : Reachable initState
  | step {s t : SysState} : Reachable s → Step s t → Reachable t

/-! Concrete fixtures used by witnesses and counterexamples. -/

/-- The raw line `"a: x"`. -/
def lineAX : Str := ['a', ':', ' ', 'x']

/-- The raw line `"a: y"`. -/
def lineAY : Str := ['a', ':', ' ', 'y']

/-- A raw line with no delimiter, `"no"`. -/
def noDelimLine : Str := ['n', 'o']

/-- A sample session id, `"s"`. -/
def sampleSid : Str := ['s']

/-- A store holding nothing. -/
def emptyStore : Store := { lists := fun _ => [], strings := fun _ => none }

/-- The empty registry. -/
def emptyRegistry : Registry := fun _ => none

/-- A store whose session `"s"` holds, newest first, `"a: x"` then `"a: y"`. -/
def cexStore : Store :=
  { lists := fun k => if k = sampleSid then [lineAX, lineAY] else []
    strings := fun _ => none }

/-- A store whose session `"s"` holds one undecodable line. -/
def ndStore : Store :=
  { lists := fun k => if k = sampleSid then [noDelimLine] else []
    strings := fun _ => none }

/-- A one-message batch. -/
def sampleMsgs : List MemoryMessage := [{ role := ['u'], content := ['h'] }]

/-! Codec lemmas. -/

/-- A line with no delimiter occurrence does not split. -/
theorem splitFirst_of_not_contains (s : Str) (h : containsDelim s = false) :
    splitFirst s = none := by
  induction s with
  | nil => rfl
  | cons c rest ih =>
    simp only [containsDelim, Bool.or_eq_false_iff] at h
    simp [splitFirst, h.1, ih h.2]

/-- A line with no delimiter occurrence decodes to nothing. -/
theorem decode_of_not_contains (s : Str) (h : containsDelim s = false) :
    decode s = none := by
  simp [decode, splitFirst_of_not_contains s h]

/-- Prepending a delimiter-free head cannot create a delimiter occurrence at
the head of `role' ++ delim ++ content`. -/
theorem delimAt_append_delim (c : Char) (role' content : Str)
    (h : delimAt c role' = false) :
    delimAt c (role' ++ (delim ++ content)) = false := by
  cases role' with
  | nil => simp [delimAt, delim]
  | cons d rest => simpa [delimAt] using h

/-- Splitting an encoded line at the first delimiter recovers role and content
when the role is delimiter-free. -/
theorem splitFirst_encode (role content : Str) (h : containsDelim role = false) :
    splitFirst (role ++ (delim ++ content)) = some (role, content) := by
  induction role with
  | nil => simp [splitFirst, delim, delimAt]
  | cons c rest ih =>
    simp only [containsDelim, Bool.or_eq_false_iff] at h
    rw [List.cons_append]
    simp [splitFirst, delimAt_append_delim c rest content h.1, ih h.2]

/-- Dropping the delimiter-free lines of a raw list does not change what it
decodes to. -/
theorem filterMap_decode_filter (l : List Str) :
    l.filterMap decode = (l.filter containsDelim).filterMap decode := by
  induction l with
  | nil => rfl
  | cons a t ih =>
    cases h : containsDelim a with
    | true => simp [List.filter_cons, h, List.filterMap_cons, ih]
    | false =>
      simp [List.filter_cons, h, decode_of_not_contains a h,
        List.filterMap_cons, ih]

/-- C4: for every message whose role contains no occurrence of the delimiter
substring `": "`, decoding the encoded form yields exactly the message. -/
theorem decode_encode_roundtrip (m : MemoryMessage)
    (h : containsDelim m.role = false) :
    decode (encode m) = some m := by
  simp [decode, encode, List.append_assoc, splitFirst_encode m.role m.content h]

/-- Witness for C4 at the message `{role := "u", content := "hi"}`. -/
theorem decode_encode_roundtrip_witness :
    decode (encode { role := ['u'], content := ['h', 'i'] }) =
      some { role := ['u'], content := ['h', 'i'] } :=
  decode_encode_roundtrip { role := ['u'], content := ['h', 'i'] } (by decide)

/-- C5: a stored line with no occurrence of the delimiter decodes to nothing,
and Read returns exactly the decodable subset of the fetched range: decoding
the raw range equals decoding its delimiter-carrying sublist, so malformed
lines are silently dropped and the read still succeeds. -/
theorem malformed_lines_dropped (s : Str) (window_size : Nat) (store : Store)
    (sid : Str) (h : containsDelim s = false) :
    decode s = none ∧
      (get_memory window_size store sid).messages =
        ((lrange (store.lists sid) 0 (window_size : Int)).filter
          containsDelim).filterMap decode := by
  exact ⟨decode_of_not_contains s h, by simp [get_memory, filterMap_decode_filter]⟩

/-- Witness for C5 at the line `"no"` and a store with a malformed entry. -/
theorem malformed_lines_dropped_witness :
    decode noDelimLine = none ∧
      (get_memory 3 ndStore sampleSid).messages =
        ((lrange (ndStore.lists sampleSid) 0 (3 : Int)).filter
          containsDelim).filterMap decode :=
  malformed_lines_dropped noDelimLine 3 ndStore sampleSid (by decide)

/-! Store lemmas. -/

/-- An LRANGE from 0 to a nonnegative bound is a prefix of the list. -/
theorem lrange_zero_nat (l : List Str) (k : Nat) :
    lrange l 0 (k : Int) = l.take (k + 1) := by
  unfold lrange
  have h1 : ¬ ((0 : Int) < 0) := by omega
  have h2 : ¬ ((k : Int) < 0) := by omega
  have h3 : ¬ ((k : Int) < max 0 0) := by omega
  simp [h1, h2, h3]

/-- LRANGE over the empty list is empty. -/
theorem lrange_nil (start stop : Int) : lrange ([] : List Str) start stop = [] := by
  unfold lrange
  split <;> simp

/-- C3: Read returns at most `window_size + 1` messages, whatever the stored
list holds, because the range-read runs from index 0 to `window_size` with an
inclusive upper bound and decoding only drops lines. -/
theorem read_window_bound (window_size : Nat) (store : Store) (sid : Str) :
    (get_memory window_size store sid).messages.length ≤ window_size + 1 := by
  have h1 : (lrange (store.lists sid) 0 (window_size : Int)).length ≤
      window_size + 1 := by
    rw [lrange_zero_nat]
    simp [List.length_take_le]
  calc (get_memory window_size store sid).messages.length
      ≤ (lrange (store.lists sid) 0 (window_size : Int)).length := by
        simpa [get_memory] using
          List.length_filterMap_le decode (lrange (store.lists sid) 0 (window_size : Int))
    _ ≤ window_size + 1 := h1

/-- C6: an Append attempts compaction admission exactly when the length
returned by the push strictly exceeds `window_size`; at or below the
threshold the registry is untouched and nothing is spawned, and when the
session's flag is already true the registry is untouched and nothing is
spawned either. -/
theorem append_admission (window_size : Nat) (store : Store)
    (registry : Registry) (sid : Str) (msgs : List MemoryMessage) :
    ((post_memory window_size store registry sid msgs).spawned = true ↔
        window_size < (lpush (store.lists sid) (msgs.map encode)).length ∧
          (registry sid).getD false = false) ∧
      ((lpush (store.lists sid) (msgs.map encode)).length ≤ window_size →
        (post_memory window_size store registry sid msgs).registry = registry ∧
          (post_memory window_size store registry sid msgs).spawned = false) ∧
      ((registry sid).getD false = true →
        (post_memory window_size store registry sid msgs).registry = registry ∧
          (post_memory window_size store registry sid msgs).spawned = false) := by
  rcases Nat.lt_or_ge window_size (lpush (store.lists sid) (msgs.map encode)).length
    with hlen | hlen
  · cases hflag : (registry sid).getD false with
    | true =>
      refine ⟨?_, ?_, ?_⟩
      · simp [post_memory, admit_compaction, hlen, hflag]
      · intro hle; omega
      · intro _; simp [post_memory, admit_compaction, hlen, hflag]
    | false =>
      refine ⟨?_, ?_, ?_⟩
      · simp [post_memory, admit_compaction, hlen, hflag]
      · intro hle; omega
      · intro htrue; simp [hflag] at htrue
  · have hnot : ¬ (lpush (store.lists sid) (msgs.map encode)).length > window_size := by
      omega
    refine ⟨?_, ?_, ?_⟩
    · simp [post_memory, hnot]
    · intro _; simp [post_memory, hnot]
    · intro _; simp [post_memory, hnot]

/-- Witness for C6: a one-message append into an empty session with
`window_size = 0` crosses the threshold and spawns. -/
theorem append_admission_witness :
    ((post_memory 0 emptyStore emptyRegistry sampleSid sampleMsgs).spawned = true ↔
        0 < (lpush (emptyStore.lists sampleSid) (sampleMsgs.map encode)).length ∧
          (emptyRegistry sampleSid).getD false = false) ∧
      ((lpush (emptyStore.lists sampleSid) (sampleMsgs.map encode)).length ≤ 0 →
        (post_memory 0 emptyStore emptyRegistry sampleSid sampleMsgs).registry =
            emptyRegistry ∧
          (post_memory 0 emptyStore emptyRegistry sampleSid sampleMsgs).spawned =
            false) ∧
      ((emptyRegistry sampleSid).getD false = true →
        (post_memory 0 emptyStore emptyRegistry sampleSid sampleMsgs).registry =
            emptyRegistry ∧
          (post_memory 0 emptyStore emptyRegistry sampleSid sampleMsgs).spawned =
            false) :=
  append_admission 0 emptyStore emptyRegistry sampleSid sampleMsgs

/-! Admission-control invariant. -/

/-- Invariant of the admission-control system: per session, at most one
compaction task runs, and a running task implies the registry flag is set. -/
def Inv (s : SysState) : Prop :=
  ∀ sid, s.inFlight sid ≤ 1 ∧ (0 < s.inFlight sid → s.registry sid = some true)

/-- The initial state satisfies the invariant. -/
theorem inv_init : Inv initState := by
  intro sid
  simp [initState]

/-- Every event preserves the invariant. -/
theorem inv_step {s t : SysState} (hs : Inv s) (st : Step s t) : Inv t := by
  cases st with
  | quiet => exact hs
  | append sid =>
    intro k
    by_cases hk : k = sid
    · subst hk
      cases hflag : (s.registry k).getD false with
      | false =>
        have hzero : s.inFlight k = 0 := by
          by_contra hnz
          have hpos : 0 < s.inFlight k := Nat.pos_of_ne_zero hnz
          have := (hs k).2 hpos
          rw [this] at hflag
          simp at hflag
        constructor
        · simp [admit_compaction, hflag, hzero]
        · intro _
          simp [admit_compaction, hflag, insertFlag]
      | true =>
        constructor
        · simp [admit_compaction, hflag]
          exact (hs k).1
        · intro hpos
          simp [admit_compaction, hflag] at hpos ⊢
          exact (hs k).2 hpos
    · constructor
      · simp [hk]
        exact (hs k).1
      · intro hpos
        simp [hk] at hpos
        have hreg := (hs k).2 hpos
        cases hflag : (s.registry sid).getD false with
        | false => simp [admit_compaction, hflag, insertFlag, hk, hreg]
        | true => simp [admit_compaction, hflag, hreg]
  | finish sid res h =>
    intro k
    by_cases hk : k = sid
    · subst hk
      constructor
      · simp
        have := (hs k).1
        omega
      · intro hpos
        simp at hpos
        have := (hs k).1
        omega
    · constructor
      · simp [hk]
        exact (hs k).1
      · intro hpos
        simp [hk] at hpos
        have hreg := (hs k).2 hpos
        simp [compaction_task_cleanup, removeFlag, hk, hreg]

/-- The invariant holds in every reachable state. -/
theorem reachable_inv {s : SysState} (h : Reachable s) : Inv s := by
  induction h with
  | init => exact inv_init
  | step _ hst ih => exact inv_step ih hst

/-- C2: in every reachable state at most one compaction task is in flight per
session, and the lock-protected critical section spawns exactly when it
observes the flag absent or false, spawning nothing (and leaving the registry
unchanged) when it observes the flag true. -/
theorem at_most_one_compaction (s : SysState) (sid : Str) (r : Registry)
    (h : Reachable s) :
    s.inFlight sid ≤ 1 ∧
      ((admit_compaction r sid).2 = true ↔ (r sid).getD false = false) ∧
      ((r sid).getD false = true → admit_compaction r sid = (r, false)) := by
  refine ⟨(reachable_inv h sid).1, ?_, ?_⟩
  · cases hflag : (r sid).getD false with
    | false => simp [admit_compaction, hflag]
    | true => simp [admit_compaction, hflag]
  · intro hflag
    simp [admit_compaction, hflag]

/-- Witness for C2 at the initial state and the empty registry. -/
theorem at_most_one_compaction_witness :
    initState.inFlight sampleSid ≤ 1 ∧
      ((admit_compaction emptyRegistry sampleSid).2 = true ↔
        (emptyRegistry sampleSid).getD false = false) ∧
      ((emptyRegistry sampleSid).getD false = true →
        admit_compaction emptyRegistry sampleSid = (emptyRegistry, false)) :=
  at_most_one_compaction initState sampleSid emptyRegistry Reachable.init

/-- C7: whatever the external compaction routine returned, the spawned task's
final action removes the session's registry entry (leaving it absent, not
false), touches no other session, and a later over-threshold Append on that
session is admitted again. -/
theorem compaction_completion_removes (res : Except String Unit) (r : Registry)
    (sid k : Str) (hk : k ≠ sid) :
    compaction_task_cleanup res r sid sid = none ∧
      compaction_task_cleanup res r sid k = r k ∧
      (admit_compaction (compaction_task_cleanup res r sid) sid).2 = true := by
  refine ⟨?_, ?_, ?_⟩
  · simp [compaction_task_cleanup, removeFlag]
  · simp [compaction_task_cleanup, removeFlag, hk]
  · simp [admit_compaction, compaction_task_cleanup, removeFlag]

/-- Witness for C7: session `"s"`, an unrelated key `"a"`, and a failed
compaction result. -/
theorem compaction_completion_removes_witness :
    compaction_task_cleanup (Except.error "boom") emptyRegistry sampleSid
        sampleSid = none ∧
      compaction_task_cleanup (Except.error "boom") emptyRegistry sampleSid
          ['a'] = emptyRegistry ['a'] ∧
      (admit_compaction
          (compaction_task_cleanup (Except.error "boom") emptyRegistry sampleSid)
          sampleSid).2 = true :=
  compaction_completion_removes (Except.error "boom") emptyRegistry sampleSid
    ['a'] (by decide)

/-- C9: Delete removes both the message-list key and the context key in its
one pipeline, answers `Ok`, touches no other key, and on an already-absent
session (empty list, no context) the store is left exactly as it was — a
successful no-op, not an error. -/
theorem delete_memory_both_keys (store : Store) (sid k : Str)
    (hk1 : k ≠ sid) (hk2 : k ≠ contextKey sid) :
    (delete_memory store sid).2 = { ok := true, status := "Ok" } ∧
      (delete_memory store sid).1.lists sid = [] ∧
      (delete_memory store sid).1.strings (contextKey sid) = none ∧
      (delete_memory store sid).1.lists k = store.lists k ∧
      (delete_memory store sid).1.strings k = store.strings k ∧
      (store.lists sid = [] ∧ store.strings (contextKey sid) = none →
        (delete_memory store sid).1 = store) := by
  refine ⟨rfl, by simp [delete_memory], by simp [delete_memory],
    by simp [delete_memory, hk1], by simp [delete_memory, hk2], ?_⟩
  rintro ⟨h1, h2⟩
  cases store with
  | mk ls ss =>
    simp only [delete_memory, Store.mk.injEq]
    simp only at h1 h2
    constructor
    · funext j
      by_cases hj : j = sid
      · subst hj
        simp [h1]
      · simp [hj]
    · funext j
      by_cases hj : j = contextKey sid
      · subst hj
        simp [h2]
      · simp [hj]

/-- Witness for C9 on the empty store, session `"s"` and the unrelated key
`"a"`. -/
theorem delete_memory_both_keys_witness :
    (delete_memory emptyStore sampleSid).2 = { ok := true, status := "Ok" } ∧
      (delete_memory emptyStore sampleSid).1.lists sampleSid = [] ∧
      (delete_memory emptyStore sampleSid).1.strings (contextKey sampleSid) =
        none ∧
      (delete_memory emptyStore sampleSid).1.lists ['a'] =
        emptyStore.lists ['a'] ∧
      (delete_memory emptyStore sampleSid).1.strings ['a'] =
        emptyStore.strings ['a'] ∧
      (emptyStore.lists sampleSid = [] ∧
          emptyStore.strings (contextKey sampleSid) = none →
        (delete_memory emptyStore sampleSid).1 = emptyStore) :=
  delete_memory_both_keys emptyStore sampleSid ['a'] (by decide) (by decide)

/-- C1 counterexample: with session `"s"` holding, newest first, `"a: x"` then
`"a: y"`, the call `DeleteLast(count = 2, expectedText = "y")` succeeds even
though the newest message (index 0) has content `"x" ≠ "y"`: the code compares
the LAST element of the fetched range, not the entry at index 0. -/
theorem delete_last_newest_cex :
    (cexStore.lists sampleSid).head?.map contentOf = some ['x'] ∧
      (['x'] : Str) ≠ ['y'] ∧
      (delete_last_messages cexStore sampleSid
        { count := 2, message_text := ['y'] }).2.ok = true := by
  decide

/-- C1 (amended): the entry DeleteLast decodes and compares against
`expectedText` is the last element of the range fetched from indices
`0 .. count-1` — the oldest entry slated for deletion, which is the newest
message only when `count = 1` — and the call is accepted exactly when that
entry exists and its extracted content equals `expectedText`. -/
theorem delete_last_compares_last_of_range (store : Store) (sid : Str)
    (req : DeleteLastRequest) :
    (delete_last_messages store sid req).2.ok = true ↔
      ∃ lm, (lrange (store.lists sid) 0 (req.count - 1)).getLast? = some lm ∧
        contentOf lm = req.message_text := by
  unfold delete_last_messages
  cases hlast : (lrange (store.lists sid) 0 (req.count - 1)).getLast? with
  | none => simp [hlast]
  | some lm =>
    by_cases hc : contentOf lm = req.message_text
    · simp [hlast, hc]
    · simp [hlast, hc]

/-- C8: when the session's list is empty, or the fetched range's compared
entry does not match `expectedText`, DeleteLast answers a BadRequest carrying
the text-mismatch status and returns the store untouched — no trim happens. -/
theorem delete_last_reject (store : Store) (sid : Str) (req : DeleteLastRequest)
    (h : store.lists sid = [] ∨
      ∃ lm, (lrange (store.lists sid) 0 (req.count - 1)).getLast? = some lm ∧
        contentOf lm ≠ req.message_text) :
    delete_last_messages store sid req =
      (store, { ok := false, status := "Failed: Message text mismatch" }) := by
  rcases h with h | ⟨lm, hlm, hne⟩
  · simp [delete_last_messages, h, lrange_nil]
  · simp [delete_last_messages, hlm, hne]

/-- Witness for C8 on an empty session. -/
theorem delete_last_reject_witness :
    delete_last_messages emptyStore sampleSid
        { count := 1, message_text := [] } =
      (emptyStore, { ok := false, status := "Failed: Message text mismatch" }) :=
  delete_last_reject emptyStore sampleSid { count := 1, message_text := [] }
    (Or.inl rfl)

/-- C10: when the entry DeleteLast selects for verification carries no `": "`
delimiter, its content is taken to be the empty string, so the call is
accepted exactly when `expectedText` is empty — and in that case the trim is
issued — rather than the line being rejected as undecodable. -/
theorem delete_last_undecodable (store : Store) (sid : Str)
    (req : DeleteLastRequest) (lm : Str)
    (h : (lrange (store.lists sid) 0 (req.count - 1)).getLast? = some lm)
    (hnd : splitFirst lm = none) :
    ((delete_last_messages store sid req).2.ok = true ↔
        req.message_text = []) ∧
      (req.message_text = [] →
        (delete_last_messages store sid req).1.lists sid =
          ltrim (store.lists sid) req.count (-1)) := by
  have hc : contentOf lm = [] := by simp [contentOf, hnd]
  constructor
  · unfold delete_last_messages
    by_cases he : req.message_text = []
    · simp [h, hc, he]
    · have he' : ¬ (([] : Str) = req.message_text) := fun hx => he hx.symm
      simp [h, hc, he, he']
  · intro he
    unfold delete_last_messages
    simp [h, hc, he]

/-- Witness for C10: one undecodable line `"no"`, `count = 1`, empty expected
text. -/
theorem delete_last_undecodable_witness :
    ((delete_last_messages ndStore sampleSid
          { count := 1, message_text := [] }).2.ok = true ↔
        ([] : Str) = []) ∧
      (([] : Str) = [] →
        (delete_last_messages ndStore sampleSid
            { count := 1, message_text := [] }).1.lists sampleSid =
          ltrim (ndStore.lists sampleSid) 1 (-1)) :=
  delete_last_undecodable ndStore sampleSid { count := 1, message_text := [] }
    noDelimLine (by decide) (by decide)

end Motorhead
